import Mathlib

/-!
Shallow embedding of the GitHub backend adapter
(src/packages/netlify-cms-backend-github/src/implementation.tsx).

Asynchronous network calls are modelled as oracle inputs: each awaited
collaborator call is represented by the value its promise settles with
(an Except for calls that can reject).  Mutation of instance fields is
modelled by explicit state passing.  Side-effecting call sites that the
specification talks about (fork-creation POST, permission prompt,
lock release, console warnings) are counted in explicit effect records
so that claims about how often they happen can be stated.
-/

/-! ## JavaScript values and truthiness

The fetcher's per-item error handling stores an arbitrary JavaScript
rejection reason in the `error` field and later filters on its
truthiness, so we model the relevant fragment of JS values. -/

inductive JSValue where
  | undefined
  | null
  | jsBool (b : Bool)
  | jsNum (n : Int)
  | jsStr (s : String)
  | obj (tag : String)
deriving DecidableEq, Repr

/-- JavaScript truthiness of a value. -/
def JSValue.truthy : JSValue → Bool
  | .undefined => false
  | .null => false
  | .jsBool b => b
  | .jsNum n => n != 0
  | .jsStr s => s != ""
  | .obj _ => true

/-! ## pollUntilForkExists

The source loops `while (!repoExists)`, probing
`GET {apiRoot}/repos/{repo}`: a fulfilled probe sets `repoExists = true`;
a rejection with `err.status === 404` sets it to `false` and the loop
sleeps `pollDelay` (250 ms) before the next probe; any other rejection
is re-thrown and rejects the whole call.  We embed the loop as structural
recursion over the (finite prefix of the) stream of probe outcomes:
`none` means the trace ended with the loop still running, `some (.ok w)`
means the loop terminated after accumulating `w` milliseconds of delay,
and `some (.error s)` means the call rejected with an error of status
`s`. -/

inductive ProbeOutcome where
  | ok
  | err (status : Nat)
deriving DecidableEq, Repr

def pollDelay : Nat := 250

def pollUntilForkExists : List ProbeOutcome → Option (Except Nat Nat)
  | [] => none
  | ProbeOutcome.ok :: _ => some (Except.ok 0)
  | ProbeOutcome.err s :: rest =>
    if s = 404 then
      match pollUntilForkExists rest with
      | none => none
      | some (Except.ok w) => some (Except.ok (w + pollDelay))
      | some (Except.error e) => some (Except.error e)
    else
      some (Except.error s)

/-! ## The mutual-exclusion lock and runWithLock

Modelled from the spec: `asyncLock` lives in the netlify-cms-lib-util
package, which is not part of the sources here.  Per the spec it is a
single-holder lock whose acquire reports whether the lock was obtained
(false when it is already held; the real implementation's timeout path
is abstracted into that failure) and whose release clears the holder. -/

structure AsyncLock where
  held : Bool
deriving DecidableEq, Repr

def lockAcquire (l : AsyncLock) : Bool × AsyncLock :=
  if l.held then (false, l) else (true, { held := true })

def lockRelease (_ : AsyncLock) : AsyncLock :=
  { held := false }

/-- Instrumented state for `runWithLock`: the lock itself plus counters
for the effects the claims talk about (release calls, warnings logged,
guarded-function invocations). -/
structure LockCtx where
  lock : AsyncLock
  releaseCalls : Nat
  funcRuns : Nat
  warnLog : List String
deriving DecidableEq, Repr

def ctxAcquire (c : LockCtx) : Bool × LockCtx :=
  let (a, l) := lockAcquire c.lock
  (a, { c with lock := l })

def ctxRelease (c : LockCtx) : LockCtx :=
  { c with lock := lockRelease c.lock, releaseCalls := c.releaseCalls + 1 }

/-- `runWithLock(func, message)`: the try-block awaits `acquire`, warns
with `message` when the lock was not obtained, then awaits `func` and
returns its result; the finally-block calls `release` on both settle
paths (normal return and throw).  `func` is modelled by the outcome its
promise settles with. -/
def runWithLock {ε α : Type} (func : Except ε α) (message : String) (c : LockCtx) :
    Except ε α × LockCtx :=
  let (acquired, c) := ctxAcquire c
  let c := if acquired then c else { c with warnLog := c.warnLog ++ [message] }
  let c := { c with funcRuns := c.funcRuns + 1 }
  match func with
  | Except.ok a => (Except.ok a, ctxRelease c)
  | Except.error e => (Except.error e, ctxRelease c)

/-! ## authenticateWithFork

State of the backend instance relevant to fork resolution, and an
oracle giving the settle values of the awaited collaborator calls. -/

structure Backend where
  openAuthoringEnabled : Bool
  originRepo : String
  repo : Option String
  useOpenAuthoring : Option Bool
deriving DecidableEq, Repr

/-- Counters for the network/prompt call sites inside
`authenticateWithFork`. -/
structure AuthCalls where
  maintainerChecks : Nat
  forkExistsChecks : Nat
  permissionPrompts : Nat
  forkCreatePosts : Nat
deriving DecidableEq, Repr

def noCalls : AuthCalls :=
  { maintainerChecks := 0, forkExistsChecks := 0, permissionPrompts := 0, forkCreatePosts := 0 }

/-- Oracle for `authenticateWithFork`: the values the awaited calls
settle with.  `permission` is the outcome of the caller-supplied
`getPermissionToFork` gate (its value is discarded by the source; only a
rejection matters).  `forkFullName` is the `full_name` from the fork
POST response, `pollProbes` the probe trace consumed by
`pollUntilForkExists`. -/
structure AuthEnv where
  isMaintainer : Bool
  forkExists : Bool
  permission : Except String Bool
  forkFullName : String
  pollProbes : List ProbeOutcome
deriving Repr

inductive AuthError where
  | thrown (msg : String)
  | pollError (status : Nat)
deriving DecidableEq, Repr

def openAuthoringOffMessage : String :=
  "Cannot authenticate with fork; Open Authoring is turned off."

/-- Result of a run of `authenticateWithFork`: `outcome` is `none` when
the fork poll never terminated on the given probe trace, otherwise the
settled value; `backend` is the instance state after the run; `calls`
counts the collaborator calls that were issued. -/
structure AuthResult where
  outcome : Option (Except AuthError Unit)
  backend : Backend
  calls : AuthCalls
deriving Repr

/-- Tail of the non-maintainer path: the unconditional
`POST {apiRoot}/repos/{originRepo}/forks`, the mutation of
`useOpenAuthoring` and `repo`, then `pollUntilForkExists` on the fork
name.  The POST is counted at the call site in `authenticateWithFork`. -/
def createForkAndPoll (b : Backend) (env : AuthEnv) (calls : AuthCalls) : AuthResult :=
  let b := { b with useOpenAuthoring := some true, repo := some env.forkFullName }
  match pollUntilForkExists env.pollProbes with
  | none => { outcome := none, backend := b, calls := calls }
  | some (Except.ok _) => { outcome := some (Except.ok ()), backend := b, calls := calls }
  | some (Except.error s) =>
    { outcome := some (Except.error (AuthError.pollError s)), backend := b, calls := calls }

/-- `authenticateWithFork`: throws when open authoring is off; otherwise
awaits `userIsOriginMaintainer` and, for maintainers, targets the origin
with open authoring off and returns.  For non-maintainers it awaits
`forkExists`; only when no fork exists does it await the
`getPermissionToFork` gate (a rejection there propagates); in either
case it then issues the fork-creation POST and polls for the fork. -/
def authenticateWithFork (b : Backend) (env : AuthEnv) : AuthResult :=
  if b.openAuthoringEnabled = false then
    { outcome := some (Except.error (AuthError.thrown openAuthoringOffMessage))
      backend := b
      calls := noCalls }
  else
    let calls := { noCalls with maintainerChecks := 1 }
    if env.isMaintainer then
      { outcome := some (Except.ok ())
        backend := { b with repo := some b.originRepo, useOpenAuthoring := some false }
        calls := calls }
    else
      let calls := { calls with forkExistsChecks := calls.forkExistsChecks + 1 }
      if env.forkExists then
        createForkAndPoll b env { calls with forkCreatePosts := calls.forkCreatePosts + 1 }
      else
        let calls := { calls with permissionPrompts := calls.permissionPrompts + 1 }
        match env.permission with
        | Except.error e =>
          { outcome := some (Except.error (AuthError.thrown e)), backend := b, calls := calls }
        | Except.ok _ =>
          createForkAndPoll b env { calls with forkCreatePosts := calls.forkCreatePosts + 1 }

/-! ## fetchFiles (bounded-concurrency fetcher, fan-in result)

Each file produces one promise.  On a successful read the promise
resolves with a record whose `error` field is `false`; on a rejection
the catch handler receives the rejection reason with a default of
`true` applied when the reason is `undefined`, and resolves with a
record whose `error` field is that reason.  `Promise.all` collects the
records in input order and the aggregate keeps exactly the records
whose `error` field is falsy. -/

structure FileDesc where
  path : String
  sha : Option String
deriving DecidableEq, Repr

/-- The record one file's promise resolves with.  Success records carry
the file and its data and `error := false`; failure records carry only
the (default-applied) rejection reason in `error`. -/
structure LoadedEntry where
  file : Option FileDesc
  data : Option String
  error : JSValue
deriving DecidableEq, Repr

/-- Settles one file's promise from the outcome of
`api.readFile(file.path, file.sha, ...)`: the then-branch on success,
the catch-branch (with the `err = true` default parameter, applied only
to an `undefined` reason) on rejection. -/
def readFileSettle (file : FileDesc) : Except JSValue String → LoadedEntry
  | Except.ok data => { file := some file, data := some data, error := JSValue.jsBool false }
  | Except.error e =>
    { file := none
      data := none
      error := if e = JSValue.undefined then JSValue.jsBool true else e }

/-- `fetchFiles`: fan out one promise per file, await them all, keep the
records whose `error` field is falsy.  The semaphore only schedules the
reads and does not affect which records the aggregate contains, so it is
modelled separately (see `SemState`). -/
def fetchFiles (items : List (FileDesc × Except JSValue String)) : List LoadedEntry :=
  (items.map fun it => readFileSettle it.1 it.2).filter fun le => !le.error.truthy

/-- The success records of a work list, in input order: what the spec
says the aggregate should be. -/
def successEntries (items : List (FileDesc × Except JSValue String)) : List LoadedEntry :=
  items.filterMap fun it =>
    match it.2 with
    | Except.ok d => some { file := some it.1, data := some d, error := JSValue.jsBool false }
    | Except.error _ => none

/-- Whether a work item's read succeeded. -/
def readSucceeded (it : FileDesc × Except JSValue String) : Bool :=
  match it.2 with
  | Except.ok _ => true
  | Except.error _ => false

/-- Number of work items whose read succeeded. -/
def successCount (items : List (FileDesc × Except JSValue String)) : Nat :=
  (items.filter readSucceeded).length

/-! ## The download semaphore

Modelled from the spec: the fetcher's concurrency ceiling is enforced by
the external semaphore package (`semaphore(MAX_CONCURRENT_DOWNLOADS)`),
whose sources are not part of this repository.  Per its contract,
`take(cb)` runs `cb` at once when a slot is free and queues it
otherwise, and `leave()` ends the calling task and hands its slot to the
next queued task if any, freeing it otherwise.  `running` counts the
tasks that have started and not yet left: the unsettled items. -/

def MAX_CONCURRENT_DOWNLOADS : Nat := 10

structure SemState where
  free : Nat
  queued : Nat
  running : Nat
deriving DecidableEq, Repr

/-- A fresh semaphore with capacity `k`. -/
def semaphore (k : Nat) : SemState :=
  { free := k, queued := 0, running := 0 }

def semTake (s : SemState) : SemState :=
  if 0 < s.free then { s with free := s.free - 1, running := s.running + 1 }
  else { s with queued := s.queued + 1 }

def semLeave (s : SemState) : SemState :=
  if s.running = 0 then s
  else if 0 < s.queued then { s with queued := s.queued - 1 }
  else { s with running := s.running - 1, free := s.free + 1 }

inductive SemOp where
  | take
  | leave
deriving DecidableEq, Repr

def semStep (s : SemState) : SemOp → SemState
  | SemOp.take => semTake s
  | SemOp.leave => semLeave s

/-- Run a schedule of take/leave events: an arbitrary interleaving of
item submissions and item completions. -/
def semRun (s : SemState) : List SemOp → SemState
  | [] => s
  | op :: ops => semRun (semStep s op) ops

/-- The semaphore created by `fetchFiles` (and likewise by
`unpublishedEntries`): capacity `MAX_CONCURRENT_DOWNLOADS`. -/
def fetchFilesSem : SemState := semaphore MAX_CONCURRENT_DOWNLOADS

/-! ## Identity caching: currentUser, userIsOriginMaintainer, logout

The instance fields `_currentUserPromise` and
`_userIsOriginMaintainerPromises` memoize the identity fetch and the
per-username permission probe; promises are modelled by the values they
settle with. -/

structure GitHubUser where
  login : String
deriving DecidableEq, Repr

/-- The identity-relevant instance state: the token, the two memo
fields, and whether the api collaborator (with a reset method) is
present and has been reset. -/
structure IdentityState where
  token : Option String
  currentUserCache : Option GitHubUser
  maintainerCache : List (String × Bool)
  apiPresent : Bool
  apiWasReset : Bool
deriving DecidableEq, Repr

/-- `currentUser`: returns the memoized `_currentUserPromise` when set,
otherwise issues the `GET {apiRoot}/user` fetch (its settle value is the
oracle `fetched`) and memoizes it. -/
def currentUser (s : IdentityState) (fetched : GitHubUser) : GitHubUser × IdentityState :=
  match s.currentUserCache with
  | some u => (u, s)
  | none => (fetched, { s with currentUserCache := some fetched })

/-- `userIsOriginMaintainer`: the username is the argument when it is a
truthy string, else the login of `currentUser`; the permission probe
for a username is issued once and memoized, and reports maintainership
when the fetched permission string is admin or write. -/
def userIsOriginMaintainer (s : IdentityState) (usernameArg : Option String)
    (fetchedUser : GitHubUser) (fetchedPermission : String) : Bool × IdentityState :=
  let (username, s) :=
    match usernameArg with
    | some u => if u = "" then
        let (cu, s) := currentUser s fetchedUser
        (cu.login, s)
      else (u, s)
    | none =>
      let (cu, s) := currentUser s fetchedUser
      (cu.login, s)
  match s.maintainerCache.lookup username with
  | some b => (b, s)
  | none =>
    let b := fetchedPermission = "admin" || fetchedPermission = "write"
    (b, { s with maintainerCache := s.maintainerCache ++ [(username, b)] })

/-- `logout`: sets the token to null and, when the api collaborator with
a reset method is present, calls `api.reset()`.  It touches neither memo
field. -/
def logout (s : IdentityState) : IdentityState :=
  let s := { s with token := none }
  if s.apiPresent then { s with apiWasReset := true } else s

/-! ## unpublishedEntries

`listUnpublishedBranches` either rejects or yields branches; each branch
is read under the semaphore, per-branch failures and null payloads
resolve to null, and nulls are filtered from the aggregate.  The final
catch maps a rejection whose message is Not Found to an empty list and
re-rejects anything else. -/

structure JsError where
  message : String
deriving DecidableEq, Repr

structure UnpubMeta where
  collection : String
  entryPath : String
deriving DecidableEq, Repr

structure UnpubData where
  metaData : UnpubMeta
  fileData : String
  isModification : Bool
deriving DecidableEq, Repr

/-- Settle value of `api.readUnpublishedBranchFile(contentKey)`:
rejection, a null/undefined payload, or data. -/
inductive ReadBranchOutcome where
  | failed
  | missing
  | got (d : UnpubData)
deriving DecidableEq, Repr

structure UnpubEntry where
  slug : String
  entryPath : String
  fileData : String
  collection : String
  isModification : Bool
deriving DecidableEq, Repr

/-- One branch's promise: null on rejection or a null payload, else the
entry record built from the data. -/
def processBranch (slugFromContentKey : String → String → String) (contentKey : String) :
    ReadBranchOutcome → Option UnpubEntry
  | ReadBranchOutcome.failed => none
  | ReadBranchOutcome.missing => none
  | ReadBranchOutcome.got d =>
    some { slug := slugFromContentKey contentKey d.metaData.collection
           entryPath := d.metaData.entryPath
           fileData := d.fileData
           collection := d.metaData.collection
           isModification := d.isModification }

/-- `unpublishedEntries`: on a successful listing, read every branch and
keep the non-null records; on a rejection, resolve with the empty list
when the message is Not Found and re-reject otherwise.
`contentKeyFromRef` and `slugFromContentKey` are the api collaborator's
pure helpers, passed as parameters. -/
def unpublishedEntries (contentKeyFromRef : String → String)
    (slugFromContentKey : String → String → String)
    (listResult : Except JsError (List (String × ReadBranchOutcome))) :
    Except JsError (List UnpubEntry) :=
  match listResult with
  | Except.ok branches =>
    Except.ok (branches.filterMap fun br =>
      processBranch slugFromContentKey (contentKeyFromRef br.1) br.2)
  | Except.error e =>
    if e.message = "Not Found" then Except.ok [] else Except.error e

/-! ## Concrete instances used by counterexamples and witnesses -/

def bOpen : Backend :=
  { openAuthoringEnabled := true, originRepo := "owner/site", repo := none,
    useOpenAuthoring := none }

def bClosed : Backend :=
  { openAuthoringEnabled := false, originRepo := "owner/site", repo := some "owner/site",
    useOpenAuthoring := none }

def envMaintainer : AuthEnv :=
  { isMaintainer := true, forkExists := true, permission := Except.ok true,
    forkFullName := "owner/site", pollProbes := [] }

def envExistingFork : AuthEnv :=
  { isMaintainer := false, forkExists := true, permission := Except.ok true,
    forkFullName := "alice/site", pollProbes := [ProbeOutcome.ok] }

def envNoFork : AuthEnv :=
  { isMaintainer := false, forkExists := false, permission := Except.ok true,
    forkFullName := "alice/site", pollProbes := [ProbeOutcome.ok] }

def lockedCtx : LockCtx :=
  { lock := { held := true }, releaseCalls := 0, funcRuns := 0, warnLog := [] }

def fileA : FileDesc := { path := "posts/a.md", sha := none }

def cachedIdentityState : IdentityState :=
  { token := some "tok", currentUserCache := some { login := "alice" },
    maintainerCache := [("alice", true)], apiPresent := true, apiWasReset := false }

/-! ## Helper lemmas -/

/-- The poll outcome does not change the call counters accumulated
before the fork-creation tail. -/
theorem createForkAndPoll_calls (b : Backend) (env : AuthEnv) (calls : AuthCalls) :
    (createForkAndPoll b env calls).calls = calls := by
  unfold createForkAndPoll
  cases hp : pollUntilForkExists env.pollProbes with
  | none => rfl
  | some r => cases r <;> rfl

/-- The success records of a work list are as many as its succeeding
items. -/
theorem successEntries_length (items : List (FileDesc × Except JSValue String)) :
    (successEntries items).length = successCount items := by
  induction items with
  | nil => rfl
  | cons it rest ih =>
    rcases it with ⟨f, o⟩
    cases o with
    | ok d =>
      have h1 : successEntries ((f, Except.ok d) :: rest)
          = { file := some f, data := some d, error := JSValue.jsBool false } ::
            successEntries rest := rfl
      have h2 : successCount ((f, Except.ok d) :: rest) = successCount rest + 1 := by
        simp [successCount, readSucceeded, List.filter_cons]
      rw [h1, List.length_cons, ih, h2]
    | error e =>
      have h1 : successEntries ((f, Except.error e) :: rest) = successEntries rest := rfl
      have h2 : successCount ((f, Except.error e) :: rest) = successCount rest := by
        simp [successCount, readSucceeded, List.filter_cons]
      rw [h1, ih, h2]

/-- A single semaphore event preserves the sum of free slots and running
tasks. -/
theorem semStep_free_add_running (s : SemState) (op : SemOp) :
    (semStep s op).free + (semStep s op).running = s.free + s.running := by
  cases op with
  | take =>
    by_cases h : 0 < s.free <;> simp [semStep, semTake, h] <;> omega
  | leave =>
    rcases Nat.eq_zero_or_pos s.running with h | h
    · simp [semStep, semLeave, h]
    · have hne : s.running ≠ 0 := Nat.pos_iff_ne_zero.mp h
      by_cases hq : 0 < s.queued <;> simp [semStep, semLeave, hne, hq] <;> omega

/-- Any schedule of semaphore events preserves the sum of free slots and
running tasks. -/
theorem semRun_free_add_running (ops : List SemOp) :
    ∀ s : SemState, (semRun s ops).free + (semRun s ops).running = s.free + s.running := by
  induction ops with
  | nil => intro s; rfl
  | cons op rest ih =>
    intro s
    have hstep := semStep_free_add_running s op
    have htail := ih (semStep s op)
    simpa [semRun] using htail.trans hstep

/-- Work lists whose failures all carry a truthy or undefined rejection
reason produce exactly their success records. -/
theorem fetchFiles_successes_core :
    ∀ items : List (FileDesc × Except JSValue String),
      (∀ it ∈ items, ∀ e, it.2 = Except.error e →
        e.truthy = true ∨ e = JSValue.undefined) →
      fetchFiles items = successEntries items := by
  intro items
  induction items with
  | nil => intro _; rfl
  | cons it rest ih =>
    intro h
    have hrest := fun x hx => h x (List.mem_cons_of_mem it hx)
    rcases it with ⟨f, o⟩
    cases o with
    | ok d =>
      have tail := ih hrest
      simp [fetchFiles, successEntries, readFileSettle, JSValue.truthy,
        List.filter_cons, List.filterMap_cons] at tail ⊢
      exact tail
    | error e =>
      have he := h (f, Except.error e) (List.mem_cons_self _ _) e rfl
      have tail := ih hrest
      have hdrop : (readFileSettle f (Except.error e)).error.truthy = true := by
        rcases he with ht | hu
        · have hne : e ≠ JSValue.undefined := by
            intro hc
            rw [hc] at ht
            exact Bool.noConfusion ht
          simp [readFileSettle, hne, ht]
        · simp [readFileSettle, hu, JSValue.truthy]
      simp [fetchFiles, successEntries, readFileSettle, List.filter_cons,
        List.filterMap_cons] at tail ⊢
      simp only [readFileSettle] at hdrop
      simp [hdrop] at tail ⊢
      exact tail

/-! ## Claim theorems -/

/-- C2: in pollUntilForkExists a successful probe terminates the loop at
once; a probe failing with status 404 is treated as not-yet-ready, so
the loop adds one fixed 250 ms delay and continues with the next probe
(propagating whatever the remaining probes produce); a probe failure
with any status other than 404 rejects the whole call with that
failure. -/
theorem pollUntilForkExists_spec (rest : List ProbeOutcome) (s w e : Nat) :
    pollUntilForkExists (ProbeOutcome.ok :: rest) = some (Except.ok 0) ∧
    (pollUntilForkExists rest = some (Except.ok w) →
      pollUntilForkExists (ProbeOutcome.err 404 :: rest) = some (Except.ok (w + pollDelay))) ∧
    (pollUntilForkExists rest = some (Except.error e) →
      pollUntilForkExists (ProbeOutcome.err 404 :: rest) = some (Except.error e)) ∧
    (s ≠ 404 → pollUntilForkExists (ProbeOutcome.err s :: rest) = some (Except.error s)) := by
  refine ⟨rfl, ?_, ?_, ?_⟩
  · intro h
    simp [pollUntilForkExists, h]
  · intro h
    simp [pollUntilForkExists, h]
  · intro h
    simp [pollUntilForkExists, h]

/-- Witness for C2 at concrete probe traces: one 404 then success costs
one 250 ms delay; a 500 aborts immediately with status 500. -/
theorem pollUntilForkExists_spec_witness :
    pollUntilForkExists (ProbeOutcome.err 404 :: [ProbeOutcome.ok]) =
      some (Except.ok (0 + pollDelay)) ∧
    pollUntilForkExists (ProbeOutcome.err 500 :: [ProbeOutcome.ok]) =
      some (Except.error 500) := by
  constructor
  · exact (pollUntilForkExists_spec [ProbeOutcome.ok] 500 0 0).2.1 rfl
  · exact (pollUntilForkExists_spec [ProbeOutcome.ok] 500 0 0).2.2.2 (by decide)

/-- C4: every run of runWithLock calls release exactly once, whether the
guarded function resolves or rejects and whether or not the lock was
obtained. -/
theorem runWithLock_release_exactly_once {ε α : Type} (func : Except ε α) (message : String)
    (c : LockCtx) :
    ((runWithLock func message c).2).releaseCalls = c.releaseCalls + 1 := by
  cases func with
  | ok a =>
    by_cases h : c.lock.held <;>
      simp [runWithLock, ctxAcquire, ctxRelease, lockAcquire, h]
  | error e =>
    by_cases h : c.lock.held <;>
      simp [runWithLock, ctxAcquire, ctxRelease, lockAcquire, h]

/-- C5: when lock acquisition reports not-obtained (the lock is already
held), runWithLock logs a warning with the caller-supplied message,
still runs the guarded function, and returns its result unchanged. -/
theorem runWithLock_proceeds_without_lock {ε α : Type} (func : Except ε α) (message : String)
    (c : LockCtx) (h : c.lock.held = true) :
    (runWithLock func message c).1 = func ∧
    ((runWithLock func message c).2).warnLog = c.warnLog ++ [message] ∧
    ((runWithLock func message c).2).funcRuns = c.funcRuns + 1 := by
  cases func with
  | ok a => simp [runWithLock, ctxAcquire, ctxRelease, lockAcquire, h]
  | error e => simp [runWithLock, ctxAcquire, ctxRelease, lockAcquire, h]

/-- Witness for C5: with the lock already held, the guarded function's
result comes back and the warning is logged. -/
theorem runWithLock_proceeds_without_lock_witness :
    (runWithLock (Except.ok 3 : Except String Nat)
        "Failed to acquire persist entry lock" lockedCtx).1 = Except.ok 3 ∧
    ((runWithLock (Except.ok 3 : Except String Nat)
        "Failed to acquire persist entry lock" lockedCtx).2).warnLog =
      [] ++ ["Failed to acquire persist entry lock"] ∧
    ((runWithLock (Except.ok 3 : Except String Nat)
        "Failed to acquire persist entry lock" lockedCtx).2).funcRuns = 0 + 1 := by
  exact runWithLock_proceeds_without_lock (Except.ok 3)
    "Failed to acquire persist entry lock" lockedCtx rfl

/-- C7: when the identity is an origin maintainer (and open authoring is
enabled so the guard passes), authenticateWithFork resolves with the
target repository set to the origin and the open-authoring flag false,
issuing no fork-existence check, no permission prompt and no
fork-creation POST, regardless of the rest of the environment (in
particular of whether a fork exists). -/
theorem authenticateWithFork_maintainer_uses_origin (b : Backend) (env : AuthEnv)
    (hOA : b.openAuthoringEnabled = true) (hM : env.isMaintainer = true) :
    (authenticateWithFork b env).outcome = some (Except.ok ()) ∧
    (authenticateWithFork b env).backend.repo = some b.originRepo ∧
    (authenticateWithFork b env).backend.useOpenAuthoring = some false ∧
    (authenticateWithFork b env).calls.forkExistsChecks = 0 ∧
    (authenticateWithFork b env).calls.permissionPrompts = 0 ∧
    (authenticateWithFork b env).calls.forkCreatePosts = 0 := by
  simp [authenticateWithFork, hOA, hM, noCalls]

/-- Witness for C7 at a concrete maintainer environment in which a fork
does exist: the origin is still targeted and no fork call is made. -/
theorem authenticateWithFork_maintainer_uses_origin_witness :
    (authenticateWithFork bOpen envMaintainer).backend.repo = some bOpen.originRepo ∧
    (authenticateWithFork bOpen envMaintainer).backend.useOpenAuthoring = some false ∧
    (authenticateWithFork bOpen envMaintainer).calls.forkCreatePosts = 0 := by
  refine ⟨?_, ?_, ?_⟩
  · exact (authenticateWithFork_maintainer_uses_origin bOpen envMaintainer rfl rfl).2.1
  · exact (authenticateWithFork_maintainer_uses_origin bOpen envMaintainer rfl rfl).2.2.1
  · exact (authenticateWithFork_maintainer_uses_origin bOpen envMaintainer rfl rfl).2.2.2.2.2

/-- C10: with open authoring disabled, authenticateWithFork rejects with
the dedicated error message before issuing any collaborator call and
without mutating the backend state. -/
theorem authenticateWithFork_requires_open_authoring (b : Backend) (env : AuthEnv)
    (h : b.openAuthoringEnabled = false) :
    (authenticateWithFork b env).outcome =
      some (Except.error (AuthError.thrown openAuthoringOffMessage)) ∧
    (authenticateWithFork b env).backend = b ∧
    (authenticateWithFork b env).calls = noCalls := by
  simp [authenticateWithFork, h]

/-- Witness for C10 at a concrete backend with open authoring off. -/
theorem authenticateWithFork_requires_open_authoring_witness :
    (authenticateWithFork bClosed envMaintainer).outcome =
      some (Except.error (AuthError.thrown openAuthoringOffMessage)) ∧
    (authenticateWithFork bClosed envMaintainer).backend = bClosed ∧
    (authenticateWithFork bClosed envMaintainer).calls = noCalls := by
  exact authenticateWithFork_requires_open_authoring bClosed envMaintainer rfl

/-- C1 counterexample: for a non-maintainer whose valid fork already
exists, authenticateWithFork still issues the fork-creation POST
(exactly once), contrary to the claim that no creation call is issued
in that case. -/
theorem forkCreate_issued_despite_existing_fork :
    envExistingFork.isMaintainer = false ∧
    envExistingFork.forkExists = true ∧
    (authenticateWithFork bOpen envExistingFork).calls.forkCreatePosts = 1 := by
  exact ⟨rfl, rfl, rfl⟩

/-- C1 (amended): for a non-maintainer, the fork-existence check gates
only the permission prompt, not the creation call: when a fork exists
the prompt is skipped and the creation POST is still issued exactly
once; when no fork exists the prompt is issued, and the creation POST is
issued exactly once if the prompt resolves and not at all if the prompt
rejects. -/
theorem authenticateWithFork_fork_check_gates_prompt_only (b : Backend) (env : AuthEnv)
    (hOA : b.openAuthoringEnabled = true) (hM : env.isMaintainer = false) :
    (env.forkExists = true →
      (authenticateWithFork b env).calls.permissionPrompts = 0 ∧
      (authenticateWithFork b env).calls.forkCreatePosts = 1) ∧
    (env.forkExists = false →
      (authenticateWithFork b env).calls.permissionPrompts = 1) ∧
    (env.forkExists = false → ∀ p, env.permission = Except.ok p →
      (authenticateWithFork b env).calls.forkCreatePosts = 1) ∧
    (env.forkExists = false → ∀ e, env.permission = Except.error e →
      (authenticateWithFork b env).calls.forkCreatePosts = 0) := by
  refine ⟨?_, ?_, ?_, ?_⟩
  · intro hf
    simp [authenticateWithFork, hOA, hM, hf, createForkAndPoll_calls, noCalls]
  · intro hf
    cases hp : env.permission with
    | ok p => simp [authenticateWithFork, hOA, hM, hf, hp, createForkAndPoll_calls, noCalls]
    | error e => simp [authenticateWithFork, hOA, hM, hf, hp, noCalls]
  · intro hf p hp
    simp [authenticateWithFork, hOA, hM, hf, hp, createForkAndPoll_calls, noCalls]
  · intro hf e hp
    simp [authenticateWithFork, hOA, hM, hf, hp, noCalls]

/-- Witness for the amended C1 at concrete environments: with an
existing fork the prompt count is 0 and the POST count 1; with no fork
the prompt count is 1 and the POST count 1. -/
theorem authenticateWithFork_fork_check_gates_prompt_only_witness :
    ((authenticateWithFork bOpen envExistingFork).calls.permissionPrompts = 0 ∧
      (authenticateWithFork bOpen envExistingFork).calls.forkCreatePosts = 1) ∧
    (authenticateWithFork bOpen envNoFork).calls.permissionPrompts = 1 ∧
    (authenticateWithFork bOpen envNoFork).calls.forkCreatePosts = 1 := by
  refine ⟨?_, ?_, ?_⟩
  · exact (authenticateWithFork_fork_check_gates_prompt_only bOpen envExistingFork rfl rfl).1 rfl
  · exact (authenticateWithFork_fork_check_gates_prompt_only bOpen envNoFork rfl rfl).2.1 rfl
  · exact (authenticateWithFork_fork_check_gates_prompt_only bOpen envNoFork rfl rfl).2.2.1
      rfl true rfl

/-- C3 counterexample: a single work item whose read rejects with the
falsy reason null is retained in the aggregate (the catch handler stores
null in the error field and the truthiness filter keeps it), so the
result size is 1 while no item succeeded. -/
theorem fetchFiles_falsy_error_retained :
    successCount [(fileA, Except.error JSValue.null)] = 0 ∧
    (fetchFiles [(fileA, Except.error JSValue.null)]).length = 1 := by
  exact ⟨rfl, rfl⟩

/-- C3 (amended): for every work list whose failures all reject with a
truthy or undefined reason, the fetcher resolves with exactly the
success records, so its size equals the count of succeeding items and
every failing item is excluded; no per-item failure rejects the overall
operation (the model is total: a result list is always produced).  A
failure rejecting with a falsy non-undefined reason (such as null) is
instead retained as a spurious record. -/
theorem fetchFiles_successes_exactly (items : List (FileDesc × Except JSValue String))
    (h : ∀ it ∈ items, ∀ e, it.2 = Except.error e →
      e.truthy = true ∨ e = JSValue.undefined) :
    fetchFiles items = successEntries items ∧
    (fetchFiles items).length = successCount items := by
  have main := fetchFiles_successes_core items h
  exact ⟨main, main ▸ successEntries_length items⟩

/-- Witness for the amended C3 on a mixed concrete work list: one
success, one failure with an Error-object reason, one failure with an
undefined reason; the aggregate is exactly the one success record. -/
theorem fetchFiles_successes_exactly_witness :
    fetchFiles
        [(fileA, Except.ok "hello"),
          ({ path := "posts/b.md", sha := none }, Except.error (JSValue.obj "Error")),
          ({ path := "posts/c.md", sha := none }, Except.error JSValue.undefined)] =
      [{ file := some fileA, data := some "hello", error := JSValue.jsBool false }] ∧
    (fetchFiles
        [(fileA, Except.ok "hello"),
          ({ path := "posts/b.md", sha := none }, Except.error (JSValue.obj "Error")),
          ({ path := "posts/c.md", sha := none }, Except.error JSValue.undefined)]).length =
      successCount
        [(fileA, Except.ok "hello"),
          ({ path := "posts/b.md", sha := none }, Except.error (JSValue.obj "Error")),
          ({ path := "posts/c.md", sha := none }, Except.error JSValue.undefined)] := by
  have h := fetchFiles_successes_exactly
    [(fileA, Except.ok "hello"),
      ({ path := "posts/b.md", sha := none }, Except.error (JSValue.obj "Error")),
      ({ path := "posts/c.md", sha := none }, Except.error JSValue.undefined)]
    (by
      intro it hit e he
      fin_cases hit
      · simp at he
      · injection he with h
        subst h
        left
        rfl
      · injection he with h
        subst h
        right
        rfl)
  exact ⟨h.1, h.2⟩

/-- C6: for every interleaving of item submissions and completions under
the download semaphore of capacity MAX_CONCURRENT_DOWNLOADS (created
alike by fetchFiles and unpublishedEntries), the number of unsettled
(started, not yet finished) items never exceeds the ceiling, and the
ceiling is 10. -/
theorem fetchFiles_concurrency_bound :
    (∀ ops : List SemOp, (semRun fetchFilesSem ops).running ≤ MAX_CONCURRENT_DOWNLOADS) ∧
    MAX_CONCURRENT_DOWNLOADS = 10 := by
  constructor
  · intro ops
    have h := semRun_free_add_running ops fetchFilesSem
    have hinit : fetchFilesSem.free + fetchFilesSem.running = MAX_CONCURRENT_DOWNLOADS := rfl
    omega
  · rfl

/-- C8: a rejection of the unpublished-branch listing whose message is
Not Found resolves unpublishedEntries with the empty list; a rejection
with any other message propagates unchanged. -/
theorem unpublishedEntries_notFound_empty (contentKeyFromRef : String → String)
    (slugFromContentKey : String → String → String) (e : JsError) :
    (e.message = "Not Found" →
      unpublishedEntries contentKeyFromRef slugFromContentKey (Except.error e) =
        Except.ok []) ∧
    (e.message ≠ "Not Found" →
      unpublishedEntries contentKeyFromRef slugFromContentKey (Except.error e) =
        Except.error e) := by
  constructor
  · intro h
    simp [unpublishedEntries, h]
  · intro h
    simp [unpublishedEntries, h]

/-- Witness for C8 at concrete errors: Not Found becomes the empty list,
any other message is re-raised unchanged. -/
theorem unpublishedEntries_notFound_empty_witness :
    unpublishedEntries id (fun c _ => c) (Except.error { message := "Not Found" }) =
      Except.ok [] ∧
    unpublishedEntries id (fun c _ => c) (Except.error { message := "API rate limit exceeded" }) =
      Except.error { message := "API rate limit exceeded" } := by
  constructor
  · exact (unpublishedEntries_notFound_empty id (fun c _ => c) { message := "Not Found" }).1 rfl
  · exact (unpublishedEntries_notFound_empty id (fun c _ => c)
      { message := "API rate limit exceeded" }).2 (by decide)

/-- C9 counterexample: on a state holding a cached identity, logout
leaves both memo fields in place, and a subsequent currentUser call
returns the previously cached identity instead of the fresh fetch. -/
theorem logout_retains_identity_cache_cex :
    (currentUser (logout cachedIdentityState) { login := "bob" }).1 = { login := "alice" } ∧
    ({ login := "alice" } : GitHubUser) ≠ { login := "bob" } ∧
    (logout cachedIdentityState).maintainerCache = [("alice", true)] := by
  exact ⟨rfl, by decide, rfl⟩

/-- C9 (amended): logout clears the token (and resets the api
collaborator when present) but does not invalidate the memoized
identity: both the current-user memo and the per-user maintainer memo
survive logout, and a subsequent identity query returns the previously
cached result rather than the fresh fetch. -/
theorem logout_preserves_caches (s : IdentityState) (u fetched : GitHubUser)
    (h : s.currentUserCache = some u) :
    (logout s).token = none ∧
    (logout s).currentUserCache = s.currentUserCache ∧
    (logout s).maintainerCache = s.maintainerCache ∧
    (currentUser (logout s) fetched).1 = u := by
  by_cases hp : s.apiPresent <;> simp [logout, currentUser, hp, h]

/-- Witness for the amended C9 at the concrete cached state. -/
theorem logout_preserves_caches_witness :
    (logout cachedIdentityState).token = none ∧
    (logout cachedIdentityState).currentUserCache = cachedIdentityState.currentUserCache ∧
    (logout cachedIdentityState).maintainerCache = cachedIdentityState.maintainerCache ∧
    (currentUser (logout cachedIdentityState) { login := "bob" }).1 = { login := "alice" } := by
  exact logout_preserves_caches cachedIdentityState { login := "alice" } { login := "bob" } rfl
